import Mathlib

/-!
# Verification of the migration driver (`driver.go`)

A shallow embedding of `Driver.Versions`, `Driver.Migrate`, `Driver.migrateTx`
and `Driver.migrateDB`.  The driver is pure control flow around an SQL
connection, so the embedding passes the connection explicitly: the connection
carries the committed contents of the database and the list of calls the
driver made on its handles, and a transaction handle carries the pending
contents on top of it.  A Go `error` is identified with its message, `nil`
being `none`.
-/

namespace Migrator

/-- Go `error`: `none` is `nil`, `some msg` an error whose `Error()` is `msg`. -/
abbrev GoError := Option String

/-- Modelled from the spec: the type `Direction` is declared outside `driver.go`;
section 3 gives it the two values `Up` and `Down`. -/
inductive Direction where
  | Up
  | Down
deriving DecidableEq, Repr

/-- Modelled from the spec: the contents of the database.  `versions` holds the
rows of the version table (section 6: one `version` column, primary key),
`data` the rows of every other table, which only migration effects touch. -/
structure Store where
  versions : List String
  data : List String
deriving DecidableEq, Repr

/-- Calls the driver makes on the connection handle, on the transaction handle
and on the effect functions of a migration. -/
inductive Call where
  | begin
  | commit
  | rollback
  | txExec (stmt arg : String)
  | dbExec (stmt arg : String)
  | funcTx (direction : Direction)
  | funcDB (direction : Direction)
deriving DecidableEq, Repr

/-- Modelled from the spec: outcomes the SQL library may report to one `Migrate`
call for reasons outside the driver (section 7): a failing `Begin`, a failing
bookkeeping `Exec`, a failing `Commit`, a failing `Rollback`. -/
structure Faults where
  begin : GoError
  exec : GoError
  commit : GoError
  rollback : GoError
deriving DecidableEq, Repr

/-- No fault at all. -/
def Faults.none : Faults := ⟨Option.none, Option.none, Option.none, Option.none⟩

/-- Modelled from the spec: the connection `*sql.DB`: the committed contents and
the calls made so far, oldest first. -/
structure DB where
  store : Store
  calls : List Call
deriving DecidableEq, Repr

/-- Modelled from the spec: the transaction handle `*sql.Tx`: the connection it
was begun on (whose store is what a rollback leaves) and the pending contents
seen inside the transaction. -/
structure Tx where
  db : DB
  work : Store
deriving DecidableEq, Repr

/-- An effect function of a migration (`func(*sql.Tx) error` or
`func(*sql.DB) error`): it may rewrite the contents it is handed and reports an
error or `nil`. -/
abbrev Effect := Store → Store × GoError

/-- A Go `map[Direction]func(...) error`: `none` is an absent key, `some none` a
key bound to a nil function, `some (some f)` a key bound to `f`. -/
abbrev FuncMap := Direction → Option (Option Effect)

/-- Modelled from the spec: the struct `Migration` is declared outside
`driver.go`; the driver reads its fields `id`, `funcTx` and `funcDB`.  For the
two maps `none` is the nil map. -/
structure Migration where
  id : String
  funcTx : Option FuncMap
  funcDB : Option FuncMap

/-- The driver: `db` is the connection, `placeHolder` the dialect placeholder. -/
structure Driver where
  db : DB
  placeHolder : String

/-! ## The SQL library, as far as the driver uses it -/

/-- Modelled from the spec: a statement is an insert into the version table when
its text starts with `INSERT INTO ` (section 6). -/
def isInsert (stmt : String) : Bool := "INSERT INTO ".data.isPrefixOf stmt.data

/-- Modelled from the spec: a statement is a delete from the version table when
its text starts with `DELETE FROM ` (section 6). -/
def isDelete (stmt : String) : Bool := "DELETE FROM ".data.isPrefixOf stmt.data

/-- Modelled from the spec: what the bookkeeping statements do to the contents.
The version table is a set keyed by `version`: inserting a present id violates
the primary key, deleting removes every row with that id and succeeds also
when there is none. -/
def execStmt (stmt arg : String) (s : Store) : Store × GoError :=
  if isInsert stmt then
    if arg ∈ s.versions then (s, some "duplicate key value violates primary key")
    else ({ s with versions := arg :: s.versions }, none)
  else if isDelete stmt then
    ({ s with versions := s.versions.filter (fun v => v ≠ arg) }, none)
  else (s, some "unsupported statement")

/-- Modelled from the spec: `db.Begin()`.  On success the transaction starts from
the committed contents. -/
def DB.Begin (fl : Faults) (db : DB) : Tx × GoError :=
  let db1 : DB := { db with calls := db.calls ++ [Call.begin] }
  (⟨db1, db1.store⟩, fl.begin)

/-- Modelled from the spec: `tx.Exec(stmt, arg)`: an injected fault leaves the
pending contents alone, otherwise the statement runs on them. -/
def Tx.Exec (fl : Faults) (stmt arg : String) (tx : Tx) : Tx × GoError :=
  let db1 : DB := { tx.db with calls := tx.db.calls ++ [Call.txExec stmt arg] }
  match fl.exec with
  | some e => (⟨db1, tx.work⟩, some e)
  | Option.none =>
    let r := execStmt stmt arg tx.work
    (⟨db1, r.1⟩, r.2)

/-- Modelled from the spec: `db.Exec(stmt, arg)` on the live connection: the
statement changes the committed contents at once. -/
def DB.Exec (fl : Faults) (stmt arg : String) (db : DB) : DB × GoError :=
  let calls := db.calls ++ [Call.dbExec stmt arg]
  match fl.exec with
  | some e => (⟨db.store, calls⟩, some e)
  | Option.none =>
    let r := execStmt stmt arg db.store
    (⟨r.1, calls⟩, r.2)

/-- Modelled from the spec: `tx.Commit()`.  Section 4.3a: the effect and the
bookkeeping are only durable if the commit succeeds. -/
def Tx.Commit (fl : Faults) (tx : Tx) : DB × GoError :=
  let calls := tx.db.calls ++ [Call.commit]
  match fl.commit with
  | some e => (⟨tx.db.store, calls⟩, some e)
  | Option.none => (⟨tx.work, calls⟩, Option.none)

/-- Modelled from the spec: `tx.Rollback()`: the pending contents are dropped. -/
def Tx.Rollback (fl : Faults) (tx : Tx) : DB × GoError :=
  (⟨tx.db.store, tx.db.calls ++ [Call.rollback]⟩, fl.rollback)

/-- Calling a transactional effect function with the transaction handle. -/
def Tx.call (direction : Direction) (f : Effect) (tx : Tx) : Tx × GoError :=
  let r := f tx.work
  (⟨{ tx.db with calls := tx.db.calls ++ [Call.funcTx direction] }, r.1⟩, r.2)

/-- Calling a direct effect function with the live connection. -/
def DB.call (direction : Direction) (f : Effect) (db : DB) : DB × GoError :=
  let r := f db.store
  (⟨r.1, db.calls ++ [Call.funcDB direction]⟩, r.2)

/-! ## `Driver.Migrate` -/

/-- The result of `fmt.Errorf(format, err)` for the two one-verb formats of the
driver: the text before `%s` followed by the message of `err`. -/
def errorf (pre : String) (err : String) : GoError := some (pre ++ err)

/-- Body of `migrateTx` after `Begin` succeeded, up to its `return`: the value
put in the (unnamed) result, the local variable `err` at that moment, and the
transaction handle. -/
def migrateTxBody (fl : Faults) (insertVersion : String) (direction : Direction)
    (migration : Migration) (funcTx : FuncMap) (tx : Tx) : GoError × GoError × Tx :=
  -- if funcTx, ok := migration.funcTx[direction]; ok && funcTx != nil {
  let afterEffect : Tx × GoError :=
    match funcTx direction with
    | some (some f) => Tx.call direction f tx
    | _ => (tx, Option.none)
  match afterEffect with
  | (tx1, some e) =>
    -- if err = funcTx(tx); err != nil { return fmt.Errorf(...) }
    (errorf "error executing golang migration: " e, some e, tx1)
  | (tx1, Option.none) =>
    -- if _, err = tx.Exec(insertVersion, migration.id); err != nil {
    match Tx.Exec fl insertVersion migration.id tx1 with
    | (tx2, some e) => (errorf "error updating migration versions: " e, some e, tx2)
    -- return err
    | (tx2, Option.none) => (Option.none, Option.none, tx2)

/-- The deferred closure of `migrateTx`, run after the result has been set: it
reads and assigns the local variable `err`. -/
def migrateTxDeferred (fl : Faults) (err : GoError) (tx : Tx) : GoError × DB :=
  match err with
  | some e =>
    -- if errRb := tx.Rollback(); errRb != nil { err = fmt.Errorf(...) }
    match Tx.Rollback fl tx with
    | (db, some errRb) => (some ("error rolling back: " ++ errRb ++ "\n" ++ e), db)
    | (db, Option.none) => (some e, db)
  | Option.none =>
    -- err = tx.Commit()
    let r := Tx.Commit fl tx
    (r.2, r.1)

/-- `Driver.migrateTx`.  The result of the Go function is unnamed, so what the
deferred closure assigns to the local `err` does not reach the caller: the
value returned is the one the `return` statement put in the result. -/
def migrateTx (fl : Faults) (d : Driver) (insertVersion : String) (direction : Direction)
    (migration : Migration) (funcTx : FuncMap) : GoError × DB :=
  match DB.Begin fl d.db with
  | (tx, some e) => (some e, tx.db)
  | (tx, Option.none) =>
    let body := migrateTxBody fl insertVersion direction migration funcTx tx
    let deferred := migrateTxDeferred fl body.2.1 body.2.2
    (body.1, deferred.2)

/-- `Driver.migrateDB`. -/
def migrateDB (fl : Faults) (d : Driver) (insertVersion : String) (direction : Direction)
    (migration : Migration) (funcDB : FuncMap) : GoError × DB :=
  let afterEffect : DB × GoError :=
    match funcDB direction with
    | some (some f) => DB.call direction f d.db
    | _ => (d.db, Option.none)
  match afterEffect with
  | (db1, some e) => (errorf "error executing golang migration: " e, db1)
  | (db1, Option.none) =>
    match DB.Exec fl insertVersion migration.id db1 with
    | (db2, some e) => (errorf "error updating migration versions: " e, db2)
    | (db2, Option.none) => (Option.none, db2)

/-- The `switch direction` at the head of `Driver.Migrate`: the text of the
bookkeeping statement.  `TableName` is the package-level table name, declared
outside `driver.go`. -/
def insertVersion (TableName : String) (d : Driver) (direction : Direction) : String :=
  match direction with
  | Direction.Up => "INSERT INTO " ++ TableName ++ " (version) VALUES (" ++ d.placeHolder ++ ")"
  | Direction.Down => "DELETE FROM " ++ TableName ++ " WHERE version=" ++ d.placeHolder

/-- `Driver.Migrate`: the returned error and the connection afterwards. -/
def Migrate (TableName : String) (fl : Faults) (d : Driver) (direction : Direction)
    (migration : Migration) : GoError × DB :=
  match migration.funcTx with
  | some funcTx =>
    migrateTx fl d (insertVersion TableName d direction) direction migration funcTx
  | Option.none =>
    match migration.funcDB with
    | some funcDB =>
      migrateDB fl d (insertVersion TableName d direction) direction migration funcDB
    | Option.none => (Option.none, d.db)

/-! ## `Driver.Versions` -/

/-- Modelled from the spec: the row stream `*sql.Rows` of a query that
succeeded: for each row that `Next` delivers the outcome of `Scan` on it (the
version string or the scan error), and the value of `rows.Err()` once `Next`
reports false. -/
structure Rows where
  scans : List (Except String String)
  err : GoError

/-- The `for rows.Next()` loop of `Driver.Versions` and the two returns after
it; `versions` is the slice collected so far. -/
def scanLoop (rowsErr : GoError) : List (Except String String) → List String →
    List String × GoError
  | [], versions => (versions, rowsErr)
  | Except.error e :: _, versions => (versions, some e)
  | Except.ok version :: rest, versions => scanLoop rowsErr rest (versions ++ [version])

/-- `Driver.Versions`; `query` is `db.Query`, the outcome of a query on the
connection.  The nil slice is the empty list. -/
def Versions (TableName : String) (query : String → DB → Except String Rows)
    (d : Driver) : List String × GoError :=
  match query ("SELECT version FROM " ++ TableName ++ " ORDER BY version DESC") d.db with
  | Except.error e => ([], some e)
  | Except.ok rows => scanLoop rows.err rows.scans []

/-- Modelled from the spec: `db.Query` on a healthy connection (section 6): the
list statement delivers every row of the version table, in descending order
of the version string, and every row scans. -/
def DB.Query (stmt : String) (db : DB) : Except String Rows :=
  if "SELECT version FROM ".data.isPrefixOf stmt.data then
    Except.ok ⟨(db.store.versions.insertionSort (fun a b => b ≤ a)).map Except.ok, Option.none⟩
  else Except.error "unsupported statement"

/-! ## Vocabulary of the properties -/

/-- The effect function the driver calls for a direction: the map has the key
and the value is not nil. -/
def FuncMap.effect (fm : FuncMap) (direction : Direction) : Option Effect :=
  match fm direction with
  | some (some f) => some f
  | _ => Option.none

/-- The error of the effect for a direction run on contents `s`; `none` when it
succeeds and when there is no effect to run. -/
def effectErr (fm : FuncMap) (direction : Direction) (s : Store) : GoError :=
  match fm.effect direction with
  | some f => (f s).2
  | Option.none => Option.none

/-- The contents the effect for a direction leaves when run on `s`; `s` itself
when there is no effect to run. -/
def effectStore (fm : FuncMap) (direction : Direction) (s : Store) : Store :=
  match fm.effect direction with
  | some f => (f s).1
  | Option.none => s

/-- The error of the bookkeeping statement run on contents `s`: the injected
fault, or what the statement itself reports. -/
def bookkeepingErr (fl : Faults) (stmt arg : String) (s : Store) : GoError :=
  match fl.exec with
  | some e => some e
  | Option.none => (execStmt stmt arg s).2

/-- The calls of a list that invoke an effect function. -/
def Call.isEffect : Call → Bool
  | Call.funcTx _ => true
  | Call.funcDB _ => true
  | _ => false

/-- The calls of a list that execute a statement. -/
def Call.isExec : Call → Bool
  | Call.txExec _ _ => true
  | Call.dbExec _ _ => true
  | _ => false

/-- The effect call the transactional path makes for a direction, if any. -/
def txEffectCalls (fm : FuncMap) (direction : Direction) : List Call :=
  match fm.effect direction with
  | some _ => [Call.funcTx direction]
  | Option.none => []

/-- The effect call the direct path makes for a direction, if any. -/
def dbEffectCalls (fm : FuncMap) (direction : Direction) : List Call :=
  match fm.effect direction with
  | some _ => [Call.funcDB direction]
  | Option.none => []

/-- The effect functions of a map do not write the version table. -/
def keepsVersions (fm : FuncMap) : Prop :=
  ∀ direction f s, fm direction = some (some f) → (f s).1.versions = s.versions

/-- A message occurs in another one. -/
def occursIn (part msg : String) : Prop := part.data <:+: msg.data

instance (part msg : String) : Decidable (occursIn part msg) := by
  unfold occursIn; infer_instance

/-! ## Concrete migrations and connections -/

/-- An effect that writes a probe row and succeeds. -/
def probeOk : Effect := fun s => ({ s with data := "probe" :: s.data }, Option.none)

/-- An effect that writes a probe row and then fails with `boom`. -/
def probeFail : Effect := fun s => ({ s with data := "probe" :: s.data }, some "boom")

/-- A driver on an empty database, with the numbered placeholder. -/
def emptyDriver : Driver := ⟨⟨⟨[], []⟩, []⟩, "$1"⟩

/-- A driver on a database where version `0001` is applied. -/
def appliedDriver : Driver := ⟨⟨⟨["0001"], ["probe"]⟩, []⟩, "$1"⟩

/-- Migration `0001` with transactional effects that succeed in both directions. -/
def txMigration : Migration := ⟨"0001", some (fun _ => some (some probeOk)), Option.none⟩

/-- Migration `0001` with transactional effects that fail in both directions. -/
def txFailing : Migration := ⟨"0001", some (fun _ => some (some probeFail)), Option.none⟩

/-- Migration `0001` with a non-nil but empty transactional map and a populated
direct map. -/
def txEmpty : Migration :=
  ⟨"0001", some (fun _ => Option.none), some (fun _ => some (some probeOk))⟩

/-- Migration `0001` with direct effects that succeed in both directions. -/
def dbMigration : Migration := ⟨"0001", Option.none, some (fun _ => some (some probeOk))⟩

/-- Migration `0001` with direct effects that fail in both directions. -/
def dbFailing : Migration := ⟨"0001", Option.none, some (fun _ => some (some probeFail))⟩

/-- Migration `0001` with both maps nil. -/
def noopMigration : Migration := ⟨"0001", Option.none, Option.none⟩

/-- Faults of a call in which only `Commit` fails. -/
def commitFails : Faults := ⟨Option.none, Option.none, some "commit failed", Option.none⟩

/-- Faults of a call in which only `Rollback` fails. -/
def rollbackFails : Faults := ⟨Option.none, Option.none, Option.none, some "connection lost"⟩

/-- Faults of a call in which only the bookkeeping `Exec` fails. -/
def execFails : Faults := ⟨Option.none, some "disk full", Option.none, Option.none⟩

/-! ## The bookkeeping statements -/

theorem isInsert_up (t : String) (d : Driver) :
    isInsert (insertVersion t d Direction.Up) = true := by
  simp [isInsert, insertVersion, String.data_append]

theorem isInsert_down (t : String) (d : Driver) :
    isInsert (insertVersion t d Direction.Down) = false := by
  simp [isInsert, insertVersion, String.data_append]
  rfl

theorem isDelete_down (t : String) (d : Driver) :
    isDelete (insertVersion t d Direction.Down) = true := by
  simp [isDelete, insertVersion, String.data_append]

theorem execStmt_up (t : String) (d : Driver) (arg : String) (s : Store) :
    execStmt (insertVersion t d Direction.Up) arg s =
      if arg ∈ s.versions then (s, some "duplicate key value violates primary key")
      else ({ s with versions := arg :: s.versions }, Option.none) := by
  simp [execStmt, isInsert_up]

theorem execStmt_down (t : String) (d : Driver) (arg : String) (s : Store) :
    execStmt (insertVersion t d Direction.Down) arg s =
      ({ s with versions := s.versions.filter (fun v => v ≠ arg) }, Option.none) := by
  simp [execStmt, isInsert_down, isDelete_down]

theorem effectErr_some (fm : FuncMap) (direction : Direction) (s : Store) (e : String)
    (h : effectErr fm direction s = some e) :
    ∃ f, fm direction = some (some f) ∧ (f s).2 = some e := by
  unfold effectErr FuncMap.effect at h
  rcases hfm : fm direction with _ | _ | f <;> simp only [hfm] at h
  · cases h
  · cases h
  · exact ⟨f, rfl, h⟩

/-! ## The transactional path, case by case -/

theorem Migrate_tx (t : String) (fl : Faults) (d : Driver) (direction : Direction)
    (m : Migration) (fm : FuncMap) (h : m.funcTx = some fm) :
    Migrate t fl d direction m = migrateTx fl d (insertVersion t d direction) direction m fm := by
  simp [Migrate, h]

theorem Migrate_db (t : String) (fl : Faults) (d : Driver) (direction : Direction)
    (m : Migration) (fm : FuncMap) (h : m.funcTx = Option.none) (h2 : m.funcDB = some fm) :
    Migrate t fl d direction m = migrateDB fl d (insertVersion t d direction) direction m fm := by
  simp [Migrate, h, h2]

theorem migrateTx_begin_fail (fl : Faults) (d : Driver) (stmt : String) (direction : Direction)
    (m : Migration) (fm : FuncMap) (e : String) (hb : fl.begin = some e) :
    migrateTx fl d stmt direction m fm = (some e, ⟨d.db.store, d.db.calls ++ [Call.begin]⟩) := by
  simp [migrateTx, DB.Begin, hb]

theorem migrateTx_effect_fail (fl : Faults) (d : Driver) (stmt : String) (direction : Direction)
    (m : Migration) (fm : FuncMap) (f : Effect) (e : String) (hb : fl.begin = Option.none)
    (hf : fm direction = some (some f)) (he : (f d.db.store).2 = some e) :
    migrateTx fl d stmt direction m fm =
      (some ("error executing golang migration: " ++ e),
       ⟨d.db.store, d.db.calls ++ [Call.begin, Call.funcTx direction, Call.rollback]⟩) := by
  rcases hr : fl.rollback with _ | r <;>
    simp [migrateTx, DB.Begin, hb, migrateTxBody, hf, Tx.call, he, migrateTxDeferred, Tx.Rollback,
      errorf, hr]

theorem migrateTx_exec_fail (fl : Faults) (d : Driver) (stmt : String) (direction : Direction)
    (m : Migration) (fm : FuncMap) (e : String) (hb : fl.begin = Option.none)
    (he : effectErr fm direction d.db.store = Option.none)
    (hx : bookkeepingErr fl stmt m.id (effectStore fm direction d.db.store) = some e) :
    migrateTx fl d stmt direction m fm =
      (some ("error updating migration versions: " ++ e),
       ⟨d.db.store, d.db.calls ++ (Call.begin :: (txEffectCalls fm direction ++
          [Call.txExec stmt m.id, Call.rollback]))⟩) := by
  unfold effectErr effectStore bookkeepingErr FuncMap.effect at *
  unfold txEffectCalls FuncMap.effect
  rcases hfm : fm direction with _ | _ | f <;> simp only [hfm] at he hx ⊢
  all_goals
    rcases hfe : fl.exec with _ | e2 <;> simp only [hfe] at hx
    all_goals
      rcases hr : fl.rollback with _ | r
      all_goals
        simp_all [migrateTx, DB.Begin, migrateTxBody, Tx.call, Tx.Exec, migrateTxDeferred,
          Tx.Rollback, errorf]

theorem migrateTx_ok (fl : Faults) (d : Driver) (stmt : String) (direction : Direction)
    (m : Migration) (fm : FuncMap) (hb : fl.begin = Option.none)
    (he : effectErr fm direction d.db.store = Option.none)
    (hx : bookkeepingErr fl stmt m.id (effectStore fm direction d.db.store) = Option.none) :
    migrateTx fl d stmt direction m fm =
      (Option.none,
       ⟨match fl.commit with
          | some _ => d.db.store
          | Option.none => (execStmt stmt m.id (effectStore fm direction d.db.store)).1,
        d.db.calls ++ (Call.begin :: (txEffectCalls fm direction ++
          [Call.txExec stmt m.id, Call.commit]))⟩) := by
  unfold effectErr effectStore bookkeepingErr FuncMap.effect at *
  unfold txEffectCalls FuncMap.effect
  rcases hfm : fm direction with _ | _ | f <;> simp only [hfm] at he hx ⊢
  all_goals
    rcases hfe : fl.exec with _ | e2 <;> simp only [hfe] at hx
    all_goals
      rcases hc : fl.commit with _ | c
      all_goals
        simp_all [migrateTx, DB.Begin, migrateTxBody, Tx.call, Tx.Exec, migrateTxDeferred,
          Tx.Commit, errorf]

/-- The error `migrateTx` returns is fixed before the deferred closure runs: it
is the same whatever `Commit` and `Rollback` report. -/
theorem migrateTx_result_ignores_deferred (fl : Faults) (c r : GoError) (d : Driver)
    (stmt : String) (direction : Direction) (m : Migration) (fm : FuncMap) :
    (migrateTx ⟨fl.begin, fl.exec, c, r⟩ d stmt direction m fm).1 =
      (migrateTx fl d stmt direction m fm).1 := by
  have hbody : ∀ b tx, migrateTxBody ⟨b, fl.exec, c, r⟩ stmt direction m fm tx =
      migrateTxBody fl stmt direction m fm tx := fun _ _ => rfl
  unfold migrateTx DB.Begin
  rcases hb : fl.begin with _ | eb
  · simp only [hbody]
  · rfl

/-! ## The direct path, case by case -/

theorem migrateDB_effect_fail (fl : Faults) (d : Driver) (stmt : String) (direction : Direction)
    (m : Migration) (fm : FuncMap) (f : Effect) (e : String)
    (hf : fm direction = some (some f)) (he : (f d.db.store).2 = some e) :
    migrateDB fl d stmt direction m fm =
      (some ("error executing golang migration: " ++ e),
       ⟨(f d.db.store).1, d.db.calls ++ [Call.funcDB direction]⟩) := by
  simp [migrateDB, hf, DB.call, he, errorf]

theorem migrateDB_exec_fail (fl : Faults) (d : Driver) (stmt : String) (direction : Direction)
    (m : Migration) (fm : FuncMap) (e : String)
    (he : effectErr fm direction d.db.store = Option.none)
    (hx : bookkeepingErr fl stmt m.id (effectStore fm direction d.db.store) = some e) :
    migrateDB fl d stmt direction m fm =
      (some ("error updating migration versions: " ++ e),
       ⟨match fl.exec with
          | some _ => effectStore fm direction d.db.store
          | Option.none => (execStmt stmt m.id (effectStore fm direction d.db.store)).1,
        d.db.calls ++ (dbEffectCalls fm direction ++ [Call.dbExec stmt m.id])⟩) := by
  unfold effectErr effectStore bookkeepingErr FuncMap.effect at *
  unfold dbEffectCalls FuncMap.effect
  rcases hfm : fm direction with _ | _ | f <;> simp only [hfm] at he hx ⊢
  all_goals
    rcases hfe : fl.exec with _ | e2 <;> simp only [hfe] at hx
    all_goals
      simp_all [migrateDB, DB.call, DB.Exec, errorf]

theorem migrateDB_ok (fl : Faults) (d : Driver) (stmt : String) (direction : Direction)
    (m : Migration) (fm : FuncMap)
    (he : effectErr fm direction d.db.store = Option.none)
    (hx : bookkeepingErr fl stmt m.id (effectStore fm direction d.db.store) = Option.none) :
    migrateDB fl d stmt direction m fm =
      (Option.none,
       ⟨(execStmt stmt m.id (effectStore fm direction d.db.store)).1,
        d.db.calls ++ (dbEffectCalls fm direction ++ [Call.dbExec stmt m.id])⟩) := by
  unfold effectErr effectStore bookkeepingErr FuncMap.effect at *
  unfold dbEffectCalls FuncMap.effect
  rcases hfm : fm direction with _ | _ | f <;> simp only [hfm] at he hx ⊢
  all_goals
    rcases hfe : fl.exec with _ | e2 <;> simp only [hfe] at hx
    all_goals
      simp_all [migrateDB, DB.call, DB.Exec, errorf]

/-! ## Claims -/

/-- C1, evaluated at the failing input: on the transactional path `Begin`, the
effect and the bookkeeping statement succeed and `Commit` fails with
`commit failed`; `Migrate` calls `Commit`, nothing is committed, and the error
returned is `nil`, not the commit error. -/
theorem commit_error_not_returned :
    Migrate "migrations" commitFails emptyDriver Direction.Up txMigration =
      (Option.none,
       ⟨⟨[], []⟩,
        [Call.begin, Call.funcTx Direction.Up,
         Call.txExec "INSERT INTO migrations (version) VALUES ($1)" "0001", Call.commit]⟩) := by
  decide

/-- C2, evaluated at the failing input: the transactional effect fails with
`boom` and the rollback then fails with `connection lost`; `Migrate` calls
`Rollback`, and the error returned is the wrapped effect error alone: the
message of the rollback error does not occur in it. -/
theorem rollback_error_not_returned :
    Migrate "migrations" rollbackFails emptyDriver Direction.Up txFailing =
      (some "error executing golang migration: boom",
       ⟨⟨[], []⟩, [Call.begin, Call.funcTx Direction.Up, Call.rollback]⟩) ∧
    ¬ occursIn "connection lost" "error executing golang migration: boom" := by
  decide

/-- C3: on the transactional path, when `Begin` succeeds and the effect for the
direction or the bookkeeping statement fails, the calls `Migrate` adds contain
`Rollback` and no `Commit`, contain no statement execution when it is the
effect that failed, and, the rollback succeeding, the contents of the database
afterwards are the contents before the call. -/
theorem tx_failure_rolls_back (t : String) (fl : Faults) (d : Driver) (direction : Direction)
    (m : Migration) (fm : FuncMap) (hfm : m.funcTx = some fm) (hb : fl.begin = Option.none)
    (hfail : effectErr fm direction d.db.store ≠ Option.none ∨
      bookkeepingErr fl (insertVersion t d direction) m.id
        (effectStore fm direction d.db.store) ≠ Option.none) :
    ∃ added : List Call,
      (Migrate t fl d direction m).2.calls = d.db.calls ++ added ∧
      Call.rollback ∈ added ∧ Call.commit ∉ added ∧
      (effectErr fm direction d.db.store ≠ Option.none → ∀ c ∈ added, c.isExec = false) ∧
      (fl.rollback = Option.none → (Migrate t fl d direction m).2.store = d.db.store) := by
  rw [Migrate_tx t fl d direction m fm hfm]
  rcases hee : effectErr fm direction d.db.store with _ | e
  · have hx : bookkeepingErr fl (insertVersion t d direction) m.id
        (effectStore fm direction d.db.store) ≠ Option.none := by
      rcases hfail with h | h
      · exact absurd hee h
      · exact h
    obtain ⟨e, hxe⟩ := Option.ne_none_iff_exists'.mp hx
    rw [migrateTx_exec_fail fl d _ direction m fm e hb hee hxe]
    refine ⟨Call.begin :: (txEffectCalls fm direction ++
      [Call.txExec (insertVersion t d direction) m.id, Call.rollback]), rfl, by simp, ?_,
      fun h => absurd rfl h, fun _ => rfl⟩
    unfold txEffectCalls
    split <;> simp
  · obtain ⟨f, hf, hfe⟩ := effectErr_some fm direction d.db.store e hee
    rw [migrateTx_effect_fail fl d _ direction m fm f e hb hf hfe]
    refine ⟨[Call.begin, Call.funcTx direction, Call.rollback], rfl, by simp, by simp, ?_,
      fun _ => rfl⟩
    intro _ c hc
    simp only [List.mem_cons, List.mem_singleton, List.not_mem_nil, or_false] at hc
    rcases hc with rfl | rfl | rfl <;> rfl

/-- Witness of C3: an effect that writes a probe row and fails, on the empty
database. -/
theorem tx_failure_rolls_back_witness :
    ∃ added : List Call,
      (Migrate "migrations" Faults.none emptyDriver Direction.Up txFailing).2.calls =
        emptyDriver.db.calls ++ added ∧
      Call.rollback ∈ added ∧ Call.commit ∉ added ∧
      (effectErr (fun _ => some (some probeFail)) Direction.Up emptyDriver.db.store ≠ Option.none →
        ∀ c ∈ added, c.isExec = false) ∧
      (Faults.none.rollback = Option.none →
        (Migrate "migrations" Faults.none emptyDriver Direction.Up txFailing).2.store =
          emptyDriver.db.store) :=
  tx_failure_rolls_back "migrations" Faults.none emptyDriver Direction.Up txFailing
    (fun _ => some (some probeFail)) rfl rfl (Or.inl (by decide))

/-- C5: a migration whose two effect maps are nil migrates, in either direction,
to `nil` with the connection untouched: no call is made on it and its contents
are the same. -/
theorem noop_migration (t : String) (fl : Faults) (d : Driver) (direction : Direction)
    (m : Migration) (htx : m.funcTx = Option.none) (hdb : m.funcDB = Option.none) :
    Migrate t fl d direction m = (Option.none, d.db) := by
  simp [Migrate, htx, hdb]

/-- Witness of C5: the migration without effects, migrated down on a database
where it is recorded as applied. -/
theorem noop_migration_witness :
    Migrate "migrations" Faults.none appliedDriver Direction.Down noopMigration =
      (Option.none, appliedDriver.db) :=
  noop_migration "migrations" Faults.none appliedDriver Direction.Down noopMigration rfl rfl

/-- C6: on the direct path, when the effect for the direction fails, `Migrate`
returns an error, the only call it makes is the effect on the live connection
(no statement execution, no `Begin`), and the contents of the database are the
ones the effect left. -/
theorem direct_effect_failure (t : String) (fl : Faults) (d : Driver) (direction : Direction)
    (m : Migration) (fm : FuncMap) (f : Effect) (e : String)
    (htx : m.funcTx = Option.none) (hdb : m.funcDB = some fm)
    (hf : fm direction = some (some f)) (he : (f d.db.store).2 = some e) :
    (Migrate t fl d direction m).1 ≠ Option.none ∧
    (Migrate t fl d direction m).2.calls = d.db.calls ++ [Call.funcDB direction] ∧
    (Migrate t fl d direction m).2.store = (f d.db.store).1 := by
  rw [Migrate_db t fl d direction m fm htx hdb,
    migrateDB_effect_fail fl d _ direction m fm f e hf he]
  exact ⟨by simp, rfl, rfl⟩

/-- Witness of C6: the failing direct effect on the empty database. -/
theorem direct_effect_failure_witness :
    (Migrate "migrations" Faults.none emptyDriver Direction.Up dbFailing).1 ≠ Option.none ∧
    (Migrate "migrations" Faults.none emptyDriver Direction.Up dbFailing).2.calls =
      emptyDriver.db.calls ++ [Call.funcDB Direction.Up] ∧
    (Migrate "migrations" Faults.none emptyDriver Direction.Up dbFailing).2.store =
      (probeFail emptyDriver.db.store).1 :=
  direct_effect_failure "migrations" Faults.none emptyDriver Direction.Up dbFailing
    (fun _ => some (some probeFail)) probeFail "boom" rfl rfl rfl rfl

/-- Strategy selection with an absent entry, where the transaction commits:
when the transactional map is not nil and has no entry, or a nil entry, for
the direction, `Migrate` begins a transaction and calls no effect function at
all; `Begin` and the bookkeeping statement succeeding, it returns `nil` and its
calls are exactly `Begin`, the bookkeeping statement with the migration id on
the transaction, and `Commit`; the commit succeeding too, the contents are the
ones the bookkeeping statement produces from the contents before, which for
`Up` have the id as a new row of the version table. -/
theorem absent_entry_takes_tx_path (t : String) (fl : Faults) (d : Driver)
    (direction : Direction) (m : Migration) (fm : FuncMap) (hfm : m.funcTx = some fm)
    (habs : fm direction = Option.none ∨ fm direction = some Option.none) :
    (∃ rest : List Call,
      (Migrate t fl d direction m).2.calls = d.db.calls ++ (Call.begin :: rest) ∧
      ∀ c ∈ rest, c.isEffect = false) ∧
    (fl.begin = Option.none →
      bookkeepingErr fl (insertVersion t d direction) m.id d.db.store = Option.none →
      (Migrate t fl d direction m).1 = Option.none ∧
      (Migrate t fl d direction m).2.calls =
        d.db.calls ++
          [Call.begin, Call.txExec (insertVersion t d direction) m.id, Call.commit] ∧
      (fl.commit = Option.none →
        (Migrate t fl d direction m).2.store =
          (execStmt (insertVersion t d direction) m.id d.db.store).1 ∧
        (direction = Direction.Up →
          (Migrate t fl d direction m).2.store.versions = m.id :: d.db.store.versions))) := by
  have hnone : fm.effect direction = Option.none := by
    unfold FuncMap.effect
    rcases habs with h | h <;> simp [h]
  have hee : effectErr fm direction d.db.store = Option.none := by simp [effectErr, hnone]
  have hes : effectStore fm direction d.db.store = d.db.store := by simp [effectStore, hnone]
  have hcalls : txEffectCalls fm direction = [] := by simp [txEffectCalls, hnone]
  rw [Migrate_tx t fl d direction m fm hfm]
  constructor
  · rcases hb : fl.begin with _ | eb
    · rcases hx : bookkeepingErr fl (insertVersion t d direction) m.id d.db.store with _ | ex
      · rw [migrateTx_ok fl d _ direction m fm hb hee (by rw [hes]; exact hx), hcalls]
        refine ⟨[Call.txExec (insertVersion t d direction) m.id, Call.commit], rfl, ?_⟩
        intro c hc
        simp only [List.mem_cons, List.mem_singleton, List.not_mem_nil, or_false] at hc
        rcases hc with rfl | rfl <;> rfl
      · rw [migrateTx_exec_fail fl d _ direction m fm ex hb hee (by rw [hes]; exact hx), hcalls]
        refine ⟨[Call.txExec (insertVersion t d direction) m.id, Call.rollback], rfl, ?_⟩
        intro c hc
        simp only [List.mem_cons, List.mem_singleton, List.not_mem_nil, or_false] at hc
        rcases hc with rfl | rfl <;> rfl
    · rw [migrateTx_begin_fail fl d _ direction m fm eb hb]
      exact ⟨[], rfl, by simp⟩
  · intro hb hx
    rw [migrateTx_ok fl d _ direction m fm hb hee (by rw [hes]; exact hx), hcalls, hes]
    refine ⟨rfl, rfl, ?_⟩
    intro hc
    simp only [hc]
    refine ⟨trivial, ?_⟩
    intro hup
    subst hup
    unfold bookkeepingErr at hx
    rcases hfe : fl.exec with _ | e2 <;> simp only [hfe] at hx
    · rw [execStmt_up] at hx ⊢
      by_cases hin : m.id ∈ d.db.store.versions
      · simp [hin] at hx
      · simp [hin]
    · cases hx

/-- The migration whose transactional map is empty and whose direct map is
populated, migrated up on the empty database with every call succeeding. -/
theorem absent_entry_takes_tx_path_witness :
    (Migrate "migrations" Faults.none emptyDriver Direction.Up txEmpty).1 = Option.none ∧
    (Migrate "migrations" Faults.none emptyDriver Direction.Up txEmpty).2.calls =
      emptyDriver.db.calls ++
        [Call.begin,
         Call.txExec (insertVersion "migrations" emptyDriver Direction.Up) txEmpty.id,
         Call.commit] ∧
    (Faults.none.commit = Option.none →
      (Migrate "migrations" Faults.none emptyDriver Direction.Up txEmpty).2.store =
        (execStmt (insertVersion "migrations" emptyDriver Direction.Up) txEmpty.id
          emptyDriver.db.store).1 ∧
      (Direction.Up = Direction.Up →
        (Migrate "migrations" Faults.none emptyDriver Direction.Up txEmpty).2.store.versions =
          txEmpty.id :: emptyDriver.db.store.versions)) :=
  (absent_entry_takes_tx_path "migrations" Faults.none emptyDriver Direction.Up txEmpty
    (fun _ => Option.none) rfl (Or.inl rfl)).2 rfl (by decide)

/-- C7, evaluated at the failing input: the transactional map is not nil and
empty, the direct map is populated, the direction is `Up` on the empty
database, and `Commit` fails with `commit failed`.  `Migrate` takes the
transactional path (`Begin`, the insert with the migration id on the
transaction, `Commit`, no effect function) and returns `nil`, yet the id is
not recorded: the version table is still empty and `Versions()` lists
nothing. -/
theorem absent_entry_up_nil_without_record :
    txEmpty.funcTx.isSome = true ∧
    (∀ fm, txEmpty.funcTx = some fm → fm Direction.Up = Option.none) ∧
    Migrate "migrations" commitFails emptyDriver Direction.Up txEmpty =
      (Option.none,
       ⟨⟨[], []⟩,
        [Call.begin, Call.txExec "INSERT INTO migrations (version) VALUES ($1)" "0001",
         Call.commit]⟩) ∧
    Versions "migrations" DB.Query
      ⟨(Migrate "migrations" commitFails emptyDriver Direction.Up txEmpty).2, "$1"⟩ =
      ([], Option.none) := by
  refine ⟨rfl, ?_, by decide, by decide⟩
  intro fm h
  have h2 : (fun _ => Option.none : FuncMap) = fm := Option.some.inj h
  rw [← h2]

theorem scanLoop_ok (rowsErr : GoError) (vs : List String) (tail : List (Except String String))
    (acc : List String) :
    scanLoop rowsErr (vs.map Except.ok ++ tail) acc = scanLoop rowsErr tail (acc ++ vs) := by
  induction vs generalizing acc with
  | nil => simp
  | cons v vs ih => simp [scanLoop, ih]

/-- C9: when the query fails `Versions` returns the empty (nil) slice and the
query error; when every row scans it returns the version strings in the order
of the rows, together with `rows.Err()` (`nil` after a clean end, so an empty
result gives the empty list and `nil`); when a row fails to scan it returns the
strings of the rows before it, in order, together with that scan error,
whatever the later rows and `rows.Err()` are. -/
theorem versions_row_stream (t : String) (query : String → DB → Except String Rows)
    (d : Driver) :
    (∀ e, query ("SELECT version FROM " ++ t ++ " ORDER BY version DESC") d.db = Except.error e →
      Versions t query d = ([], some e)) ∧
    (∀ vs rowsErr,
      query ("SELECT version FROM " ++ t ++ " ORDER BY version DESC") d.db =
        Except.ok ⟨vs.map Except.ok, rowsErr⟩ →
      Versions t query d = (vs, rowsErr)) ∧
    (∀ vs e later rowsErr,
      query ("SELECT version FROM " ++ t ++ " ORDER BY version DESC") d.db =
        Except.ok ⟨vs.map Except.ok ++ Except.error e :: later, rowsErr⟩ →
      Versions t query d = (vs, some e)) := by
  refine ⟨?_, ?_, ?_⟩
  · intro e h
    simp [Versions, h]
  · intro vs rowsErr h
    have := scanLoop_ok rowsErr vs [] []
    simp only [List.append_nil, List.nil_append] at this
    simp [Versions, h, this, scanLoop]
  · intro vs e later rowsErr h
    have := scanLoop_ok rowsErr vs (Except.error e :: later) []
    simp only [List.nil_append] at this
    simp [Versions, h, this, scanLoop]

/-- Witness of C9: a failing query, the healthy connection with one applied
version, the healthy empty connection, and a stream whose second row fails to
scan. -/
theorem versions_row_stream_witness :
    Versions "migrations" (fun _ _ => Except.error "connection refused") emptyDriver =
      ([], some "connection refused") ∧
    Versions "migrations" DB.Query appliedDriver = (["0001"], Option.none) ∧
    Versions "migrations" DB.Query emptyDriver = ([], Option.none) ∧
    Versions "migrations"
      (fun _ _ => Except.ok ⟨[Except.ok "0003", Except.error "scan failed", Except.ok "0001"],
        Option.none⟩) emptyDriver = (["0003"], some "scan failed") :=
  ⟨(versions_row_stream "migrations" (fun _ _ => Except.error "connection refused")
      emptyDriver).1 "connection refused" rfl,
   (versions_row_stream "migrations" DB.Query appliedDriver).2.1 ["0001"] Option.none rfl,
   (versions_row_stream "migrations" DB.Query emptyDriver).2.1 [] Option.none rfl,
   (versions_row_stream "migrations"
      (fun _ _ => Except.ok ⟨[Except.ok "0003", Except.error "scan failed", Except.ok "0001"],
        Option.none⟩) emptyDriver).2.2 ["0003"] "scan failed" [Except.ok "0001"] Option.none rfl⟩

/-! ## Bookkeeping when the transaction commits

The two properties below hold on the direct path, and on the transactional
path whenever `Commit` does not fail. -/

theorem effectStore_versions (fm : FuncMap) (hk : keepsVersions fm) (direction : Direction)
    (s : Store) : (effectStore fm direction s).versions = s.versions := by
  unfold effectStore FuncMap.effect
  rcases hfm : fm direction with _ | _ | f <;> simp only [hfm]
  exact hk direction f s hfm

theorem Versions_healthy (t : String) (d : Driver) :
    Versions t DB.Query d =
      (d.db.store.versions.insertionSort (fun a b => b ≤ a), Option.none) := by
  have hq : DB.Query ("SELECT version FROM " ++ t ++ " ORDER BY version DESC") d.db =
      Except.ok ⟨(d.db.store.versions.insertionSort (fun a b => b ≤ a)).map Except.ok,
        Option.none⟩ := by
    simp [DB.Query, String.data_append]
  have := scanLoop_ok Option.none (d.db.store.versions.insertionSort (fun a b => b ≤ a)) [] []
  simp only [List.append_nil, List.nil_append] at this
  unfold Versions
  rw [hq]
  simp only
  rw [this]
  rfl

theorem Migrate_nil (t : String) (fl : Faults) (d : Driver) (direction : Direction)
    (m : Migration) (fm : FuncMap)
    (hpath : m.funcTx = some fm ∨ (m.funcTx = Option.none ∧ m.funcDB = some fm))
    (hnil : (Migrate t fl d direction m).1 = Option.none) :
    bookkeepingErr fl (insertVersion t d direction) m.id
      (effectStore fm direction d.db.store) = Option.none ∧
    (m.funcTx = Option.none ∨ fl.commit = Option.none →
      (Migrate t fl d direction m).2.store =
        (execStmt (insertVersion t d direction) m.id (effectStore fm direction d.db.store)).1) := by
  rcases hpath with htx | ⟨htx, hdb⟩
  · rw [Migrate_tx t fl d direction m fm htx] at hnil ⊢
    rcases hb : fl.begin with _ | eb
    · rcases hee : effectErr fm direction d.db.store with _ | e
      · rcases hx : bookkeepingErr fl (insertVersion t d direction) m.id
            (effectStore fm direction d.db.store) with _ | ex
        · refine ⟨rfl, ?_⟩
          intro hc
          rw [migrateTx_ok fl d _ direction m fm hb hee hx]
          rcases hc with hc | hc
          · rw [htx] at hc; cases hc
          · simp [hc]
        · rw [migrateTx_exec_fail fl d _ direction m fm ex hb hee hx] at hnil
          cases hnil
      · obtain ⟨f, hf, hfe⟩ := effectErr_some fm direction d.db.store e hee
        rw [migrateTx_effect_fail fl d _ direction m fm f e hb hf hfe] at hnil
        cases hnil
    · rw [migrateTx_begin_fail fl d _ direction m fm eb hb] at hnil
      cases hnil
  · rw [Migrate_db t fl d direction m fm htx hdb] at hnil ⊢
    rcases hee : effectErr fm direction d.db.store with _ | e
    · rcases hx : bookkeepingErr fl (insertVersion t d direction) m.id
          (effectStore fm direction d.db.store) with _ | ex
      · refine ⟨rfl, ?_⟩
        intro _
        rw [migrateDB_ok fl d _ direction m fm hee hx]
      · rw [migrateDB_exec_fail fl d _ direction m fm ex hee hx] at hnil
        cases hnil
    · obtain ⟨f, hf, hfe⟩ := effectErr_some fm direction d.db.store e hee
      rw [migrateDB_effect_fail fl d _ direction m fm f e hf hfe] at hnil
      cases hnil

theorem up_store_when_committed (t : String) (fl : Faults) (d : Driver) (m : Migration)
    (fm : FuncMap)
    (hpath : m.funcTx = some fm ∨ (m.funcTx = Option.none ∧ m.funcDB = some fm))
    (hc : m.funcTx = Option.none ∨ fl.commit = Option.none) (hk : keepsVersions fm)
    (hnil : (Migrate t fl d Direction.Up m).1 = Option.none) :
    m.id ∉ d.db.store.versions ∧
    (Migrate t fl d Direction.Up m).2.store.versions = m.id :: d.db.store.versions := by
  obtain ⟨hx, hs⟩ := Migrate_nil t fl d Direction.Up m fm hpath hnil
  rw [hs hc]
  unfold bookkeepingErr at hx
  rcases hfe : fl.exec with _ | e2 <;> simp only [hfe] at hx
  · rw [execStmt_up] at hx ⊢
    rw [effectStore_versions fm hk] at hx ⊢
    by_cases hin : m.id ∈ d.db.store.versions
    · simp [hin] at hx
    · simp [hin, effectStore_versions fm hk]
  · cases hx

theorem down_store_when_committed (t : String) (fl : Faults) (d : Driver) (m : Migration)
    (fm : FuncMap)
    (hpath : m.funcTx = some fm ∨ (m.funcTx = Option.none ∧ m.funcDB = some fm))
    (hc : m.funcTx = Option.none ∨ fl.commit = Option.none) (hk : keepsVersions fm)
    (hnil : (Migrate t fl d Direction.Down m).1 = Option.none) :
    (Migrate t fl d Direction.Down m).2.store.versions =
      d.db.store.versions.filter (fun v => v ≠ m.id) := by
  obtain ⟨_, hs⟩ := Migrate_nil t fl d Direction.Down m fm hpath hnil
  rw [hs hc, execStmt_down]
  simp [effectStore_versions fm hk]

/-- Bookkeeping correctness (C4) where the transaction commits: after an `Up`
that returned `nil` the list of `Versions()` holds the id exactly once, after a
`Down` that returned `nil` it does not hold the id. -/
theorem bookkeeping_when_committed (t : String) (fl : Faults) (d : Driver) (m : Migration)
    (fm : FuncMap)
    (hpath : m.funcTx = some fm ∨ (m.funcTx = Option.none ∧ m.funcDB = some fm))
    (hc : m.funcTx = Option.none ∨ fl.commit = Option.none) (hk : keepsVersions fm) :
    ((Migrate t fl d Direction.Up m).1 = Option.none →
      (Versions t DB.Query ⟨(Migrate t fl d Direction.Up m).2, d.placeHolder⟩).1.count m.id = 1 ∧
      (Versions t DB.Query ⟨(Migrate t fl d Direction.Up m).2, d.placeHolder⟩).2 = Option.none) ∧
    ((Migrate t fl d Direction.Down m).1 = Option.none →
      m.id ∉ (Versions t DB.Query ⟨(Migrate t fl d Direction.Down m).2, d.placeHolder⟩).1 ∧
      (Versions t DB.Query ⟨(Migrate t fl d Direction.Down m).2, d.placeHolder⟩).2 =
        Option.none) := by
  constructor
  · intro hnil
    obtain ⟨hin, hv⟩ := up_store_when_committed t fl d m fm hpath hc hk hnil
    rw [Versions_healthy]
    refine ⟨?_, rfl⟩
    simp only
    rw [(List.perm_insertionSort _ _).count_eq, hv]
    simp [List.count_eq_zero_of_not_mem hin]
  · intro hnil
    have hv := down_store_when_committed t fl d m fm hpath hc hk hnil
    rw [Versions_healthy]
    refine ⟨?_, rfl⟩
    simp only
    rw [(List.perm_insertionSort _ _).mem_iff, hv]
    simp

/-- Round trip (C8) where both transactions commit: after an `Up` and a `Down`
of the same migration that both returned `nil`, `Versions()` returns what it
returned before the `Up`. -/
theorem round_trip_when_committed (t : String) (fl1 fl2 : Faults) (d : Driver) (m : Migration)
    (fm : FuncMap)
    (hpath : m.funcTx = some fm ∨ (m.funcTx = Option.none ∧ m.funcDB = some fm))
    (hc1 : m.funcTx = Option.none ∨ fl1.commit = Option.none)
    (hc2 : m.funcTx = Option.none ∨ fl2.commit = Option.none) (hk : keepsVersions fm)
    (hup : (Migrate t fl1 d Direction.Up m).1 = Option.none)
    (hdown : (Migrate t fl2 ⟨(Migrate t fl1 d Direction.Up m).2, d.placeHolder⟩
      Direction.Down m).1 = Option.none) :
    Versions t DB.Query
      ⟨(Migrate t fl2 ⟨(Migrate t fl1 d Direction.Up m).2, d.placeHolder⟩
        Direction.Down m).2, d.placeHolder⟩ = Versions t DB.Query d := by
  obtain ⟨hin, hv⟩ := up_store_when_committed t fl1 d m fm hpath hc1 hk hup
  have hv2 := down_store_when_committed t fl2 _ m fm hpath hc2 hk hdown
  simp only [hv] at hv2
  have hfil : List.filter (fun v => decide (v ≠ m.id)) (m.id :: d.db.store.versions) =
      d.db.store.versions := by
    rw [List.filter_cons_of_neg (by simp)]
    rw [List.filter_eq_self]
    intro a ha
    have : a ≠ m.id := fun h => hin (h ▸ ha)
    simpa using this
  rw [hfil] at hv2
  rw [Versions_healthy, Versions_healthy]
  simp only [hv2]

/-- C10, as amended: when the effect function for the direction fails with `e`,
on the transactional path (the rollback succeeding) and on the direct path, the
error `Migrate` returns has the message `error executing golang migration: `
followed by `e`. -/
theorem effect_error_wrapped (t : String) (fl : Faults) (d : Driver) (direction : Direction)
    (m : Migration) (fm : FuncMap) (f : Effect) (e : String)
    (hpath : (m.funcTx = some fm ∧ fl.begin = Option.none ∧ fl.rollback = Option.none) ∨
      (m.funcTx = Option.none ∧ m.funcDB = some fm))
    (hf : fm direction = some (some f)) (he : (f d.db.store).2 = some e) :
    (Migrate t fl d direction m).1 = some ("error executing golang migration: " ++ e) := by
  rcases hpath with ⟨htx, hb, _⟩ | ⟨htx, hdb⟩
  · rw [Migrate_tx t fl d direction m fm htx,
      migrateTx_effect_fail fl d _ direction m fm f e hb hf he]
  · rw [Migrate_db t fl d direction m fm htx hdb,
      migrateDB_effect_fail fl d _ direction m fm f e hf he]

/-- Witness of C10 as amended: the failing effect on the transactional and on
the direct path. -/
theorem effect_error_wrapped_witness :
    (Migrate "migrations" Faults.none emptyDriver Direction.Up txFailing).1 =
      some ("error executing golang migration: " ++ "boom") ∧
    (Migrate "migrations" Faults.none emptyDriver Direction.Down dbFailing).1 =
      some ("error executing golang migration: " ++ "boom") :=
  ⟨effect_error_wrapped "migrations" Faults.none emptyDriver Direction.Up txFailing
      (fun _ => some (some probeFail)) probeFail "boom" (Or.inl ⟨rfl, rfl, rfl⟩) rfl rfl,
   effect_error_wrapped "migrations" Faults.none emptyDriver Direction.Down dbFailing
      (fun _ => some (some probeFail)) probeFail "boom" (Or.inr ⟨rfl, rfl⟩) rfl rfl⟩

/-- C10 as stated fails: the effect fails with `boom`, and on neither path is
the message of the returned error `error executing migration: boom`. -/
theorem effect_error_message_counterexample :
    (probeFail emptyDriver.db.store).2 = some "boom" ∧
    (Migrate "migrations" Faults.none emptyDriver Direction.Up txFailing).1 ≠
      some ("error executing migration: " ++ "boom") ∧
    (Migrate "migrations" Faults.none emptyDriver Direction.Up dbFailing).1 ≠
      some ("error executing migration: " ++ "boom") := by
  decide

/-- C4, evaluated at the failing inputs.  `Up` on the empty database with a
failing `Commit`: `Migrate` returns `nil` and `Versions()` afterwards does not
list the id.  `Down` of an applied id with a failing `Commit`: `Migrate`
returns `nil` and `Versions()` afterwards still lists the id. -/
theorem nil_result_without_bookkeeping :
    (Migrate "migrations" commitFails emptyDriver Direction.Up txMigration).1 = Option.none ∧
    Versions "migrations" DB.Query
      ⟨(Migrate "migrations" commitFails emptyDriver Direction.Up txMigration).2, "$1"⟩ =
      ([], Option.none) ∧
    (Migrate "migrations" commitFails appliedDriver Direction.Down txMigration).1 = Option.none ∧
    Versions "migrations" DB.Query
      ⟨(Migrate "migrations" commitFails appliedDriver Direction.Down txMigration).2, "$1"⟩ =
      (["0001"], Option.none) := by
  decide

/-- C8, evaluated at the failing input.  On the empty database `Up` succeeds
and commits, then `Down` runs with a failing `Commit`: both calls return `nil`,
`Versions()` was empty before the `Up` and lists the id after the `Down`. -/
theorem round_trip_broken_by_failed_commit :
    Versions "migrations" DB.Query emptyDriver = ([], Option.none) ∧
    (Migrate "migrations" Faults.none emptyDriver Direction.Up txMigration).1 = Option.none ∧
    (Migrate "migrations" commitFails
      ⟨(Migrate "migrations" Faults.none emptyDriver Direction.Up txMigration).2, "$1"⟩
      Direction.Down txMigration).1 = Option.none ∧
    Versions "migrations" DB.Query
      ⟨(Migrate "migrations" commitFails
        ⟨(Migrate "migrations" Faults.none emptyDriver Direction.Up txMigration).2, "$1"⟩
        Direction.Down txMigration).2, "$1"⟩ = (["0001"], Option.none) := by
  decide

end Migrator
